import Mathlib

/-!
Verification of the email-agent classification-and-action pipeline.

The Python sources embedded here are:
  - worker/rules/rules_parser.py   (rule engine: ClassificationRule, RulesParser)
  - worker/classifiers/ollama_classifier.py (EmailClassifier)
  - worker/actions/email_actions.py (action dispatcher and bulk operations)

Strings are modelled by their character lists; Python str.lower/str.upper are
modelled by Char.toLower/Char.toUpper (they agree on ASCII, which is what the
rule patterns and category names use).  Machine integers (priorities,
confidences) are unbounded in Python, hence Int here.  Database lookups,
connector calls and the LLM transport are external collaborators: they enter
the model as explicit inputs (Option results, behaviour records) and the
embedded functions record the connector calls they make in an explicit trace.
-/

namespace EmailAgent

/-! ## Character-list string helpers (embedding Python str operations) -/

/-- Embeds Python str.lower (ASCII range). -/
def lowerChars (s : List Char) : List Char := s.map Char.toLower

/-- Embeds Python str.upper (ASCII range). -/
def upperChars (s : List Char) : List Char := s.map Char.toUpper

/-- Embeds Python str.strip(): drop whitespace at both ends. -/
def trimChars (s : List Char) : List Char :=
  ((s.dropWhile Char.isWhitespace).reverse.dropWhile Char.isWhitespace).reverse

/-- Embeds Python "pat in text": pat occurs as a contiguous substring of text. -/
def isSubstr (pat : List Char) : List Char → Bool
  | [] => pat.isEmpty
  | c :: t => pat.isPrefixOf (c :: t) || isSubstr pat t

/-- Embeds Python text.split("|"): split at every pipe character, keeping
empty pieces, and yielding one (empty) piece for the empty string. -/
def splitPipe : List Char → List (List Char)
  | [] => [[]]
  | c :: cs =>
    if c = '|' then [] :: splitPipe cs
    else
      match splitPipe cs with
      | [] => [[c]]
      | h :: t => (c :: h) :: t

/-! ## Data model (api.models enums, as listed in alembic 001_initial_schema) -/

inductive EmailCategory where
  | INVOICE | RECEIPT | DOCUMENT | PROFESSIONAL | NEWSLETTER | PROMOTION
  | SOCIAL | NOTIFICATION | PERSONAL | SPAM | UNKNOWN
deriving DecidableEq, Repr

inductive ProcessingStatus where
  | PENDING | PROCESSING | CLASSIFIED | ARCHIVED | DELETED | ERROR
deriving DecidableEq, Repr

inductive AccountType where
  | GMAIL | OUTLOOK | IMAP
deriving DecidableEq, Repr

/-- One entry of a rule's conditions dict.  The YAML dict maps a condition
type key to its value; dict iteration order (insertion order) is kept by
using a list.  The unknown constructor carries an unrecognized key. -/
inductive Condition where
  | sender_contains (pat : String)
  | sender_equals (pat : String)
  | subject_contains (pat : String)
  | subject_equals (pat : String)
  | body_contains (pat : String)
  | has_attachments (b : Bool)
  | attachment_name_contains (pat : String)
  | unknown (ctype : String)
deriving DecidableEq, Repr

/-- The email_data dict handed to rule matching.  The three text fields model
dict.get returning None or a string ("x or y" turns None into the empty
string); has_attachments defaults to False and attachment_names to []. -/
structure EmailData where
  subject : Option String := none
  sender : Option String := none
  body_preview : Option String := none
  has_attachments : Bool := false
  attachment_names : List String := []
deriving DecidableEq, Repr

/-- Embeds rules_parser.ClassificationRule (constructor fields). -/
structure ClassificationRule where
  name : String
  conditions : List Condition
  category : EmailCategory
  folder : Option String := none
  auto_delete : Bool := false
  priority : Int := 0
deriving DecidableEq, Repr

/-! ## Rule engine (rules_parser.py) -/

/-- Embeds ClassificationRule._check_contains: if the pattern holds a pipe,
split it, strip and lowercase each piece and accept when any piece occurs in
the text; otherwise test the lowercased pattern alone.  The text argument is
already lowercased by the caller. -/
def check_contains (text : List Char) (pattern : String) : Bool :=
  if pattern.toList.contains '|' then
    (splitPipe pattern.toList).any (fun p => isSubstr (lowerChars (trimChars p)) text)
  else
    isSubstr (lowerChars pattern.toList) text

/-- One iteration of the condition loop in ClassificationRule.matches.
The subject, sender and body arguments are the lowercased email fields.
An unrecognized condition type is only logged and the loop moves on, so it
evaluates to true here. -/
def matchesCond (subject sender body : List Char) (has_att : Bool)
    (att_names : List String) : Condition → Bool
  | .sender_contains pat => check_contains sender pat
  | .sender_equals pat => sender == lowerChars pat.toList
  | .subject_contains pat => check_contains subject pat
  | .subject_equals pat => subject == lowerChars pat.toList
  | .body_contains pat => check_contains body pat
  | .has_attachments b => has_att == b
  | .attachment_name_contains pat =>
      att_names.any (fun n => isSubstr (lowerChars pat.toList) (lowerChars n.toList))
  | .unknown _ => true

/-- Embeds ClassificationRule.matches: lowercase the email fields, then check
every condition; the Python loop returns False at the first failing condition
and True after the loop, which is List.all.  (The surrounding try/except can
only fire on ill-typed condition values, which the typed Condition embedding
rules out.) -/
def ClassificationRule.matches (r : ClassificationRule) (d : EmailData) : Bool :=
  let subject := lowerChars (d.subject.getD "").toList
  let sender := lowerChars (d.sender.getD "").toList
  let body := lowerChars (d.body_preview.getD "").toList
  r.conditions.all (matchesCond subject sender body d.has_attachments d.attachment_names)

/-- One YAML rule entry as read by RulesParser._parse_rule: every field
through dict.get with the defaults used there. -/
structure RuleData where
  name : Option String := none
  conditions : List Condition := []
  category : Option String := none
  folder : Option String := none
  auto_delete : Bool := false
  priority : Int := 0
deriving DecidableEq, Repr

/-- Embeds the Python lookup EmailCategory[category_str]: member-name
indexing over the EmailCategory enum, None for a KeyError. -/
def parseCategory (u : List Char) : Option EmailCategory :=
  if u = "INVOICE".toList then some .INVOICE
  else if u = "RECEIPT".toList then some .RECEIPT
  else if u = "DOCUMENT".toList then some .DOCUMENT
  else if u = "PROFESSIONAL".toList then some .PROFESSIONAL
  else if u = "NEWSLETTER".toList then some .NEWSLETTER
  else if u = "PROMOTION".toList then some .PROMOTION
  else if u = "SOCIAL".toList then some .SOCIAL
  else if u = "NOTIFICATION".toList then some .NOTIFICATION
  else if u = "PERSONAL".toList then some .PERSONAL
  else if u = "SPAM".toList then some .SPAM
  else if u = "UNKNOWN".toList then some .UNKNOWN
  else none

/-- Embeds RulesParser._parse_rule: reject a falsy name (absent key or empty
string), reject absent or empty conditions, reject a category string that is
not an EmailCategory member name after uppercasing (the category key defaults
to "unknown", which is a valid member); otherwise build the rule. -/
def parse_rule (rd : RuleData) : Option ClassificationRule :=
  match rd.name with
  | none => none
  | some n =>
    if n = "" then none
    else if rd.conditions = [] then none
    else
      match parseCategory (upperChars (rd.category.getD "unknown").toList) with
      | none => none
      | some cat =>
        some { name := n, conditions := rd.conditions, category := cat,
               folder := rd.folder, auto_delete := rd.auto_delete,
               priority := rd.priority }

/-- Embeds the loop of RulesParser._load_rules_file: parse every entry in
file order, appending the parsed rule and skipping entries _parse_rule
rejected, never aborting the loop. -/
def loadRulesList : List RuleData → List ClassificationRule
  | [] => []
  | rd :: rds =>
    match parse_rule rd with
    | some r => r :: loadRulesList rds
    | none => loadRulesList rds

/-- Stable insertion step for sorting by priority descending: a rule moves
past exactly the strictly higher-priority rules, so on equal priority the
earlier (already-placed) rule stays first. -/
def insertRule (r : ClassificationRule) : List ClassificationRule → List ClassificationRule
  | [] => [r]
  | x :: xs => if r.priority < x.priority then x :: insertRule r xs else r :: x :: xs

/-- Embeds self.rules.sort with a priority key, reverse, in
RulesParser.load_rules: Python Timsort is stable, so any stable
priority-descending sort is extensionally the same; a stable insertion sort
is used here. -/
def sortRules : List ClassificationRule → List ClassificationRule
  | [] => []
  | r :: rs => insertRule r (sortRules rs)

/-- Embeds RulesParser.load_rules on the parsed entries of the rules file:
parse the entries in file order, then sort by priority descending. -/
def load_rules (entries : List RuleData) : List ClassificationRule :=
  sortRules (loadRulesList entries)

/-- Embeds RulesParser.find_matching_rule over a loaded rule list: return the
first rule in list order whose matches is true.  (The lazy self.load_rules()
call on an empty parser is a cache detail; the theorems quantify over the
loaded list.) -/
def find_matching_rule (rules : List ClassificationRule) (d : EmailData) :
    Option ClassificationRule :=
  rules.find? (fun r => r.matches d)

/-! ## LLM classifier (ollama_classifier.py)

The HTTP transport and the JSON decoding of the model output are external
collaborators.  An OllamaReply is the outcome of the POST in _call_ollama; a
ParsedResponse is the outcome of the brace-extraction plus json.loads step of
_parse_llm_response: malformed covers a missing JSON object, a json.loads
failure and a non-integer confidence (every path into the except branch),
fields carries the three dict.get lookups of a decoded object. -/

inductive ParsedResponse where
  | malformed
  | fields (category : Option String) (confidence : Option Int) (reason : Option String)
deriving DecidableEq, Repr

inductive OllamaReply where
  | reply (r : ParsedResponse)
  | timeout
  | http_error (msg : String)
deriving DecidableEq, Repr

/-- The classification result dict: category, confidence, reason. -/
structure ClassificationResult where
  category : EmailCategory
  confidence : Int
  reason : String
deriving DecidableEq, Repr

/-- Embeds EmailClassifier._call_ollama: a timeout or HTTP error is re-raised
as a plain Exception with the shown message; otherwise the response body is
returned. -/
def call_ollama : OllamaReply → Except String ParsedResponse
  | .reply r => .ok r
  | .timeout => .error "LLM request timeout"
  | .http_error e => .error ("LLM HTTP error: " ++ e)

/-- Embeds the category_mapping.get(category_str, EmailCategory.UNKNOWN)
lookup in _parse_llm_response (the mapping has no "unknown" key, so that
string also falls to the UNKNOWN default). -/
def category_mapping_get (s : List Char) : EmailCategory :=
  if s = "invoice".toList then .INVOICE
  else if s = "receipt".toList then .RECEIPT
  else if s = "document".toList then .DOCUMENT
  else if s = "professional".toList then .PROFESSIONAL
  else if s = "newsletter".toList then .NEWSLETTER
  else if s = "promotion".toList then .PROMOTION
  else if s = "social".toList then .SOCIAL
  else if s = "notification".toList then .NOTIFICATION
  else if s = "personal".toList then .PERSONAL
  else if s = "spam".toList then .SPAM
  else .UNKNOWN

/-- Embeds EmailClassifier._fallback_classification. -/
def fallback_classification : ClassificationResult :=
  { category := .UNKNOWN, confidence := 20,
    reason := "Fallback classification - LLM response could not be parsed" }

/-- Embeds EmailClassifier._parse_llm_response: any parsing failure is caught
internally and degrades to _fallback_classification; a decoded object is
mapped with the defaults "unknown", 50 and "No reason provided", the
confidence clamped into 0..100. -/
def parse_llm_response : ParsedResponse → ClassificationResult
  | .malformed => fallback_classification
  | .fields cat conf reason =>
      { category := category_mapping_get (lowerChars (cat.getD "unknown").toList),
        confidence := min 100 (max 0 (conf.getD 50)),
        reason := reason.getD "No reason provided" }

/-- Embeds EmailClassifier.classify_email: the try block runs the transport
and the parser; only a transport error reaches the except branch, which
returns the UNKNOWN / 0 / error-description dict instead of raising.
(Prompt construction cannot raise, so it does not appear in the model.) -/
def classify_email (t : OllamaReply) : ClassificationResult :=
  match call_ollama t with
  | .ok r => parse_llm_response r
  | .error e =>
      { category := .UNKNOWN, confidence := 0,
        reason := "Error during classification: " ++ e }

/-! ## Action dispatcher (email_actions.py)

The database and the provider connector are external collaborators.  A
lookup is modelled by the Option record the mocked db.get would return; the
connector by a ConnectorBeh record giving the outcome of each call the
dispatcher can make, together with an explicit trace of the calls actually
performed.  Wall-clock time is a single now parameter (processing_time_ms,
a pure wall-clock quantity, is left out of the record). -/

/-- The persisted Email row fields the dispatcher reads or writes. -/
structure EmailRec where
  id : Nat
  account_id : Nat
  message_id : String
  subject : Option String := none
  sender : Option String := none
  body_preview : Option String := none
  has_attachments : Bool := false
  category : EmailCategory := .UNKNOWN
  classification_confidence : Int := 0
  classification_reason : String := ""
  status : ProcessingStatus := .PENDING
  archived_folder : Option String := none
  is_deleted : Bool := false
  deleted_at : Option Nat := none
  processed_at : Option Nat := none
deriving DecidableEq, Repr

/-- The persisted EmailAccount row fields the dispatcher reads. -/
structure EmailAccount where
  id : Nat
  account_type : AccountType
deriving DecidableEq, Repr

/-- Stable string values of the AccountType enum members (modelled from the
spec, which fixes lowercase string values for the persisted enums; only used
inside an error message). -/
def accountTypeValue : AccountType → String
  | .GMAIL => "gmail"
  | .OUTLOOK => "outlook"
  | .IMAP => "imap"

/-- Outcomes of the connector collaborator for one dispatch: whether
_get_connector_for_account raises, whether connect() raises, the boolean
results of move_email / delete_email / apply_label, and whether the hasattr
probe finds an apply_label capability. -/
structure ConnectorBeh where
  acquire_fails : Bool := false
  connect_fails : Bool := false
  move_result : Bool := true
  delete_result : Bool := true
  label_result : Bool := true
  has_apply_label : Bool := true
deriving DecidableEq, Repr

/-- Trace entry for one call made on the connector. -/
inductive ConnectorCall where
  | connect
  | move (message_id folder : String)
  | delete (message_id : String) (permanent : Bool)
  | apply_label (message_id label : String)
  | disconnect
deriving DecidableEq, Repr

/-- The dict returned by apply_classification_action; status is the literal
Python string ("success" or "error" here). -/
structure ActionResult where
  status : String
  actions_taken : List String := []
  error : Option String := none
  category : Option EmailCategory := none
  confidence : Option Int := none
deriving DecidableEq, Repr

/-- Embeds _get_default_folder_for_category. -/
def get_default_folder_for_category : EmailCategory → Option String
  | .INVOICE => some "Finance/Invoices"
  | .RECEIPT => some "Finance/Receipts"
  | .DOCUMENT => some "Documents"
  | .NEWSLETTER => some "Newsletters"
  | .PROMOTION => some "Promotions"
  | .SOCIAL => some "Social"
  | .NOTIFICATION => some "Notifications"
  | .PROFESSIONAL => none
  | .PERSONAL => none
  | .SPAM => none
  | .UNKNOWN => none

/-- The email_data dict built at email_actions.py lines 155-161 and 513-519:
both sites hard-code attachment_names to the empty list. -/
def emailDataFor (e : EmailRec) : EmailData :=
  { subject := e.subject, sender := e.sender, body_preview := e.body_preview,
    has_attachments := e.has_attachments, attachment_names := [] }

/-- Embeds apply_classification_action.  Inputs: the loaded rule set, the two
db.get results, the caller-supplied category and confidence, the connector
behaviour and the clock.  Output: the result dict, the email row as left in
the database (none when the email lookup failed, otherwise its final
committed state; on the connector-exception path the uncommitted attribute
changes are lost, so the row is unchanged), and the connector call trace. -/
def apply_classification_action (rules : List ClassificationRule)
    (email_id : Nat) (email? : Option EmailRec) (account? : Option EmailAccount)
    (category : EmailCategory) (confidence : Int)
    (beh : ConnectorBeh) (now : Nat) :
    ActionResult × Option EmailRec × List ConnectorCall :=
  match email? with
  | none =>
      ({ status := "error", error := some ("Email " ++ toString email_id ++ " not found") },
       none, [])
  | some email =>
    match account? with
    | none =>
        ({ status := "error",
           error := some ("Account " ++ toString email.account_id ++ " not found") },
         some email, [])
    | some _acct =>
      let d := emailDataFor email
      let rule := find_matching_rule rules d
      let actions0 : List String :=
        match rule with
        | some r => ["matched_rule:" ++ r.name]
        | none => []
      let target_folder : Option String :=
        match rule with
        | some r => r.folder
        | none => get_default_folder_for_category category
      let should_delete : Bool :=
        match rule with
        | some r => r.auto_delete
        | none => category == .SPAM
      if beh.acquire_fails then
        -- ConnectorNotFoundError propagates to the outer except: error dict
        -- with the actions accumulated so far, nothing committed.
        ({ status := "error", actions_taken := actions0,
           error := some "Failed to create connector" }, some email, [])
      else if beh.connect_fails then
        -- connect() raised; the finally block still calls disconnect().
        ({ status := "error", actions_taken := actions0,
           error := some "connect failed" }, some email,
         [.connect, .disconnect])
      else
        -- Python truthiness of target_folder: a present, non-empty string.
        let folderTruthy : Bool :=
          match target_folder with
          | some f => !(f = "")
          | none => false
        let moveStep : List ConnectorCall × List String × EmailRec :=
          if folderTruthy && !should_delete then
            let f := target_folder.getD ""
            if beh.move_result then
              ([.move email.message_id f], actions0 ++ ["moved_to:" ++ f],
               { email with archived_folder := some f })
            else
              ([.move email.message_id f], actions0, email)
          else ([], actions0, email)
        let deleteStep : List ConnectorCall × List String × EmailRec :=
          if should_delete then
            if beh.delete_result then
              ([.delete email.message_id false], moveStep.2.1 ++ ["deleted"],
               { moveStep.2.2 with is_deleted := true, deleted_at := some now })
            else
              ([.delete email.message_id false], moveStep.2.1, moveStep.2.2)
          else ([], moveStep.2.1, moveStep.2.2)
        let final : EmailRec :=
          { deleteStep.2.2 with status := .CLASSIFIED, processed_at := some now }
        ({ status := "success", actions_taken := deleteStep.2.1,
           category := some category, confidence := some confidence },
         some final,
         [ConnectorCall.connect] ++ moveStep.1 ++ deleteStep.1 ++ [.disconnect])

/-! ## Bulk move (email_actions.bulk_move_emails) -/

/-- One entry of the failed list: the dict with email_id and error keys. -/
structure FailedEntry where
  email_id : Nat
  error : String
deriving DecidableEq, Repr

/-- The dict returned by bulk_move_emails; status is the literal Python
string "success", "partial" or "error". -/
structure BulkMoveResult where
  status : String
  succeeded : List Nat
  failed : List FailedEntry
  total : Nat
deriving DecidableEq, Repr

/-- The collaborator outcomes for one id of a bulk move: the two db.get
results and the connector behaviour for that iteration. -/
structure MoveEnv where
  email_id : Nat
  email? : Option EmailRec := none
  account? : Option EmailAccount := none
  beh : ConnectorBeh := {}
deriving DecidableEq, Repr

/-- One iteration of the bulk_move_emails loop: either the id lands in the
failed list with the error string the code produces there, or the move
succeeded and the updated row (status ARCHIVED, archived_folder set) is
recorded with the id. -/
def bulkMoveStep (folder : String) (env : MoveEnv) : FailedEntry ⊕ (Nat × EmailRec) :=
  match env.email? with
  | none => .inl { email_id := env.email_id, error := "Email not found" }
  | some email =>
    match env.account? with
    | none => .inl { email_id := env.email_id, error := "Account not found" }
    | some _acct =>
      if env.beh.acquire_fails then
        .inl { email_id := env.email_id, error := "Failed to create connector" }
      else if env.beh.connect_fails then
        .inl { email_id := env.email_id, error := "connect failed" }
      else if env.beh.move_result then
        .inr (env.email_id, { email with archived_folder := some folder, status := .ARCHIVED })
      else
        .inl { email_id := env.email_id, error := "Move operation failed" }

/-- Embeds bulk_move_emails: per-id loop appending to succeeded or failed
(each iteration independently guarded), one commit at the end, and the
overall status computed from the two lists: success when nothing failed,
partial when both lists are non-empty, error otherwise. -/
def bulk_move_emails (envs : List MoveEnv) (folder : String) :
    BulkMoveResult × List EmailRec :=
  let steps := envs.map (bulkMoveStep folder)
  let succeeded := steps.filterMap (fun s => match s with | .inr (i, _) => some i | .inl _ => none)
  let failed := steps.filterMap (fun s => match s with | .inl f => some f | .inr _ => none)
  let updated := steps.filterMap (fun s => match s with | .inr (_, e) => some e | .inl _ => none)
  let status :=
    if failed.isEmpty then "success"
    else if !succeeded.isEmpty then "partial"
    else "error"
  ({ status := status, succeeded := succeeded, failed := failed, total := envs.length },
   updated)

/-! ## Gmail labels (email_actions.apply_label) -/

/-- The dict returned by apply_label. -/
structure LabelResult where
  status : String
  error : Option String := none
  label : Option String := none
deriving DecidableEq, Repr

/-- Embeds apply_label: lookup failures and non-Gmail accounts return error
dicts before any connector is created; for Gmail the connector is created
and connected, the hasattr probe guards the label capability, and a missing
capability or a false apply_label result is returned as an error dict. -/
def apply_label (email_id : Nat) (email? : Option EmailRec)
    (account? : Option EmailAccount) (label : String) (beh : ConnectorBeh) :
    LabelResult × List ConnectorCall :=
  match email? with
  | none =>
      ({ status := "error", error := some ("Email " ++ toString email_id ++ " not found") }, [])
  | some email =>
    match account? with
    | none =>
        ({ status := "error",
           error := some ("Account " ++ toString email.account_id ++ " not found") }, [])
    | some acct =>
      if acct.account_type ≠ AccountType.GMAIL then
        ({ status := "error",
           error := some ("Labels are only supported for Gmail accounts (account type: "
                          ++ accountTypeValue acct.account_type ++ ")") }, [])
      else if beh.acquire_fails then
        ({ status := "error", error := some "Failed to create connector" }, [])
      else if beh.connect_fails then
        ({ status := "error", error := some "connect failed" }, [.connect, .disconnect])
      else if beh.has_apply_label then
        if beh.label_result then
          ({ status := "success", label := some label },
           [.connect, .apply_label email.message_id label, .disconnect])
        else
          ({ status := "error", error := some "Failed to apply label" },
           [.connect, .apply_label email.message_id label, .disconnect])
      else
        ({ status := "error",
           error := some "Gmail connector does not support label operations" },
         [.connect, .disconnect])

/-! ## Bulk classification (email_actions.bulk_classify_pending_emails) -/

/-- The collaborator outcomes for one pending email of a bulk classification:
the email row itself, the account lookup the inner dispatch will make, the
connector behaviour, the result the (never-raising) LLM classifier returns
when no rule matches, and whether the per-email commit raises (the only
exception source in the loop body, since the dispatcher catches all its own
exceptions). -/
structure PendingEnv where
  email : EmailRec
  account? : Option EmailAccount := none
  beh : ConnectorBeh := {}
  llm : ClassificationResult := { category := .UNKNOWN, confidence := 0, reason := "" }
  commit_raises : Bool := false
deriving DecidableEq, Repr

/-- The dict returned by bulk_classify_pending_emails. -/
structure BulkClassifyResult where
  status : String
  processed : Nat
  classified : Nat
  errors : Nat
deriving DecidableEq, Repr

/-- The classification the loop computes for one email before committing it:
the matched rule gives (category, 95, "Matched rule: name"), otherwise the
classifier result is used. -/
def bulkClassification (rules : List ClassificationRule) (env : PendingEnv) :
    EmailCategory × Int × String :=
  match find_matching_rule rules (emailDataFor env.email) with
  | some r => (r.category, 95, "Matched rule: " ++ r.name)
  | none => (env.llm.category, env.llm.confidence, env.llm.reason)

/-- The email row as committed by the loop before dispatch: classification
written on and status advanced to PROCESSING. -/
def classifiedRow (rules : List ClassificationRule) (env : PendingEnv) : EmailRec :=
  { env.email with
    category := (bulkClassification rules env).1
    classification_confidence := (bulkClassification rules env).2.1
    classification_reason := (bulkClassification rules env).2.2
    status := .PROCESSING }

/-- One iteration of the bulk_classify_pending_emails loop: write the
classification onto the row and advance it to PROCESSING, commit, then
invoke apply_classification_action and ignore its returned dict, counting
the email as classified; if the commit raises, the except branch counts an
error and commits the row with status ERROR instead (the classification
attributes already set on the object go with it).  Returns (classified
increment, errors increment, final row). -/
def bulkClassifyStep (rules : List ClassificationRule) (now : Nat)
    (env : PendingEnv) : Nat × Nat × EmailRec :=
  if env.commit_raises then
    (0, 1, { classifiedRow rules env with status := .ERROR })
  else
    let dispatched :=
      apply_classification_action rules (classifiedRow rules env).id
        (some (classifiedRow rules env)) env.account?
        (bulkClassification rules env).1 (bulkClassification rules env).2.1
        env.beh now
    (1, 0, dispatched.2.1.getD (classifiedRow rules env))

/-- Embeds bulk_classify_pending_emails over the selected pending rows:
processed counts every loop entry, classified and errors accumulate the
per-iteration increments, and the status string is "success" when the
top-level query and loop ran (collaborator-level aborts are outside this
model). -/
def bulk_classify_pending_emails (rules : List ClassificationRule)
    (envs : List PendingEnv) (now : Nat) : BulkClassifyResult × List EmailRec :=
  let steps := envs.map (bulkClassifyStep rules now)
  ({ status := "success", processed := envs.length,
     classified := (steps.map (fun s => s.1)).sum,
     errors := (steps.map (fun s => s.2.1)).sum },
   steps.map (fun s => s.2.2))

/-! ## Specification-side definitions

These definitions follow the words of the specification, not the code; the
refinement theorems below compare them with the embedded source functions. -/

/-- Maximum of a list of priorities (none for the empty list). -/
def maxPrio : List Int → Option Int
  | [] => none
  | p :: ps =>
    match maxPrio ps with
    | none => some p
    | some m => some (max p m)

/-- Modelled from the spec: among the rules whose conditions all hold, the
one of highest priority, and on equal priority the one appearing earliest in
source order; none when no rule matches.  The input list is in source-file
order (before any sorting). -/
def findSpec (rules : List ClassificationRule) (d : EmailData) :
    Option ClassificationRule :=
  match maxPrio (((rules.filter (fun r => r.matches d)).map (fun r => r.priority))) with
  | none => none
  | some m => (rules.filter (fun r => r.matches d)).find? (fun r => r.priority == m)

/-- Modelled from the spec: the alternatives encoded by a pattern, namely the
pipe-separated pieces (stripped and lowercased) when the pattern holds a
pipe, else the lowercased pattern alone. -/
def patAlternatives (pat : String) : List (List Char) :=
  if pat.toList.contains '|' then
    (splitPipe pat.toList).map (fun p => lowerChars (trimChars p))
  else
    [lowerChars pat.toList]

/-- Modelled from the spec: a contains-pattern holds on a text when some
alternative occurs in it as a substring. -/
def ContainsPat (text : List Char) (pat : String) : Prop :=
  ∃ p ∈ patAlternatives pat, p <:+: text

/-- Modelled from the spec: what it means for one declared condition to hold
on an email, over the lowercased email fields. -/
def CondHolds (d : EmailData) : Condition → Prop
  | .sender_contains pat => ContainsPat (lowerChars (d.sender.getD "").toList) pat
  | .sender_equals pat => lowerChars (d.sender.getD "").toList = lowerChars pat.toList
  | .subject_contains pat => ContainsPat (lowerChars (d.subject.getD "").toList) pat
  | .subject_equals pat => lowerChars (d.subject.getD "").toList = lowerChars pat.toList
  | .body_contains pat => ContainsPat (lowerChars (d.body_preview.getD "").toList) pat
  | .has_attachments b => d.has_attachments = b
  | .attachment_name_contains pat =>
      ∃ n ∈ d.attachment_names, lowerChars pat.toList <:+: lowerChars n.toList
  | .unknown _ => True

/-- Modelled from the spec: a bulk-move iteration succeeds when the email and
account are found, the connector is created and connected, and the move
operation reports true. -/
def moveSucceeds (env : MoveEnv) : Bool :=
  env.email?.isSome && env.account?.isSome && !env.beh.acquire_fails
    && !env.beh.connect_fails && env.beh.move_result

/-- Priority-descending sortedness (every element bounds all later ones). -/
def SortedDesc (l : List ClassificationRule) : Prop :=
  l.Pairwise (fun a b => b.priority ≤ a.priority)

/-! ## Lemmas about the stable priority sort -/

theorem insertRule_perm (r : ClassificationRule) (l : List ClassificationRule) :
    (insertRule r l).Perm (r :: l) := by
  induction l with
  | nil => exact List.Perm.refl _
  | cons x xs ih =>
      unfold insertRule
      by_cases h : r.priority < x.priority
      · rw [if_pos h]
        exact (ih.cons x).trans (List.Perm.swap r x xs)
      · rw [if_neg h]

theorem sortRules_perm (l : List ClassificationRule) : (sortRules l).Perm l := by
  induction l with
  | nil => exact List.Perm.refl _
  | cons r rs ih => exact (insertRule_perm r (sortRules rs)).trans (ih.cons r)

theorem sortedDesc_insertRule (r : ClassificationRule) (l : List ClassificationRule)
    (h : SortedDesc l) : SortedDesc (insertRule r l) := by
  unfold SortedDesc at *
  induction l with
  | nil => exact List.pairwise_singleton _ _
  | cons x xs ih =>
      rcases List.pairwise_cons.mp h with ⟨hx, hxs⟩
      unfold insertRule
      by_cases hlt : r.priority < x.priority
      · rw [if_pos hlt]
        refine List.pairwise_cons.mpr ⟨?_, ih hxs⟩
        intro b hb
        have hb' : b ∈ r :: xs := (insertRule_perm r xs).mem_iff.mp hb
        rcases List.mem_cons.mp hb' with rfl | hbxs
        · exact le_of_lt hlt
        · exact hx b hbxs
      · rw [if_neg hlt]
        have hxr : x.priority ≤ r.priority := le_of_not_lt hlt
        refine List.pairwise_cons.mpr ⟨?_, h⟩
        intro b hb
        rcases List.mem_cons.mp hb with rfl | hbxs
        · exact hxr
        · exact le_trans (hx b hbxs) hxr

theorem sortRules_sorted (l : List ClassificationRule) : SortedDesc (sortRules l) := by
  induction l with
  | nil => unfold SortedDesc; exact List.Pairwise.nil
  | cons r rs ih => exact sortedDesc_insertRule r _ ih

theorem insertRule_split (r : ClassificationRule) (l : List ClassificationRule)
    (h : SortedDesc l) :
    ∃ A B, l = A ++ B ∧ insertRule r l = A ++ r :: B
      ∧ (∀ a ∈ A, r.priority < a.priority)
      ∧ (∀ b ∈ B, b.priority ≤ r.priority) := by
  unfold SortedDesc at h
  induction l with
  | nil => exact ⟨[], [], rfl, rfl, by simp, by simp⟩
  | cons x xs ih =>
      rcases List.pairwise_cons.mp h with ⟨hx, hxs⟩
      by_cases hlt : r.priority < x.priority
      · rcases ih hxs with ⟨A, B, hAB, hins, hA, hB⟩
        refine ⟨x :: A, B, by simp [hAB], ?_, ?_, hB⟩
        · unfold insertRule
          rw [if_pos hlt, hins]
          rfl
        · intro a ha
          rcases List.mem_cons.mp ha with rfl | haA
          · exact hlt
          · exact hA a haA
      · refine ⟨[], x :: xs, rfl, ?_, by simp, ?_⟩
        · unfold insertRule
          rw [if_neg hlt]
          rfl
        · intro b hb
          rcases List.mem_cons.mp hb with rfl | hbxs
          · exact le_of_not_lt hlt
          · exact le_trans (hx b hbxs) (le_of_not_lt hlt)

theorem maxPrio_mem (ps : List Int) (m : Int) (h : maxPrio ps = some m) : m ∈ ps := by
  induction ps generalizing m with
  | nil => simp [maxPrio] at h
  | cons p ps ih =>
      unfold maxPrio at h
      cases hps : maxPrio ps with
      | none =>
          rw [hps] at h
          simp only [Option.some.injEq] at h
          exact h ▸ List.mem_cons_self p ps
      | some m' =>
          rw [hps] at h
          simp only [Option.some.injEq] at h
          rcases max_choice p m' with hc | hc
          · rw [hc] at h
            exact h ▸ List.mem_cons_self p ps
          · rw [hc] at h
            exact List.mem_cons_of_mem p (h ▸ ih m' hps)

/-- Key refinement: a first-match scan of the stably sorted list computes
exactly the spec-side selection (highest priority, earliest in source order
on ties, none when nothing matches). -/
theorem find?_sortRules_eq_findSpec (d : EmailData) (l : List ClassificationRule) :
    (sortRules l).find? (fun r => r.matches d) = findSpec l d := by
  induction l with
  | nil => rfl
  | cons r rs ih =>
      have hsorted := sortRules_sorted rs
      rcases insertRule_split r (sortRules rs) hsorted with ⟨A, B, hAB, hins, hA, hB⟩
      show (insertRule r (sortRules rs)).find? (fun q => q.matches d) = findSpec (r :: rs) d
      rw [hins, List.find?_append]
      by_cases hPr : r.matches d = true
      · have hfilter : (r :: rs).filter (fun q => q.matches d)
            = r :: rs.filter (fun q => q.matches d) := by
          simp [List.filter_cons, hPr]
        cases hFA : List.find? (fun q => q.matches d) A with
        | some a =>
            have hSa : List.find? (fun q => q.matches d) (sortRules rs) = some a := by
              rw [hAB, List.find?_append, hFA]
              rfl
            have hspec : findSpec rs d = some a := by rw [← ih]; exact hSa
            rcases hm : maxPrio ((rs.filter (fun q => q.matches d)).map
                (fun q => q.priority)) with _ | m
            · exfalso
              unfold findSpec at hspec
              rw [hm] at hspec
              exact Option.noConfusion hspec
            · have hspec' : List.find? (fun q => q.priority == m)
                  (rs.filter (fun q => q.matches d)) = some a := by
                have h0 := hspec
                unfold findSpec at h0
                rw [hm] at h0
                exact h0
              have ham : a.priority = m := by
                have := List.find?_some hspec'
                simpa using this
              have haA : a ∈ A := List.mem_of_find?_eq_some hFA
              have hram : r.priority < m := ham ▸ hA a haA
              have hmax : maxPrio (((r :: rs).filter (fun q => q.matches d)).map
                  (fun q => q.priority)) = some m := by
                rw [hfilter]
                simp only [List.map_cons]
                unfold maxPrio
                rw [hm]
                simp [max_eq_right (le_of_lt hram)]
              have hrm : ((fun q => q.priority == m) r) = false :=
                beq_eq_false_iff_ne.mpr (ne_of_lt hram)
              have hrhs : findSpec (r :: rs) d = some a := by
                unfold findSpec
                rw [hmax]
                show List.find? (fun q => q.priority == m)
                    ((r :: rs).filter (fun q => q.matches d)) = some a
                rw [hfilter, List.find?_cons_of_neg _ (by simp [hrm])]
                exact hspec'
              exact hrhs.symm
        | none =>
            have hbound : ∀ x ∈ rs.filter (fun q => q.matches d),
                x.priority ≤ r.priority := by
              intro x hx
              have hxP : x.matches d = true := (List.mem_filter.mp hx).2
              have hxrs : x ∈ rs := (List.mem_filter.mp hx).1
              have hxS : x ∈ sortRules rs := ((sortRules_perm rs).mem_iff).mpr hxrs
              rw [hAB] at hxS
              rcases List.mem_append.mp hxS with hxA | hxB
              · exact absurd hxP (by simpa using List.find?_eq_none.mp hFA x hxA)
              · exact hB x hxB
            have hmax : maxPrio (((r :: rs).filter (fun q => q.matches d)).map
                (fun q => q.priority)) = some r.priority := by
              rw [hfilter]
              simp only [List.map_cons]
              unfold maxPrio
              cases hm : maxPrio ((rs.filter (fun q => q.matches d)).map
                  (fun q => q.priority)) with
              | none => rfl
              | some m =>
                  have hm_mem := maxPrio_mem _ _ hm
                  rcases List.mem_map.mp hm_mem with ⟨x, hx, hxm⟩
                  have hle : m ≤ r.priority := hxm ▸ hbound x hx
                  simp [max_eq_left hle]
            have hrhs : findSpec (r :: rs) d = some r := by
              unfold findSpec
              rw [hmax]
              show List.find? (fun q => q.priority == r.priority)
                  ((r :: rs).filter (fun q => q.matches d)) = some r
              rw [hfilter, List.find?_cons_of_pos _ (by simp)]
            have hconsp : List.find? (fun q => q.matches d) (r :: B) = some r :=
              List.find?_cons_of_pos B hPr
            rw [Option.none_or, hconsp]
            exact hrhs.symm
      · have hPrf : r.matches d = false := by
          revert hPr
          cases r.matches d <;> simp
        have hcons : List.find? (fun q => q.matches d) (r :: B)
            = List.find? (fun q => q.matches d) B :=
          List.find?_cons_of_neg B hPr
        rw [hcons]
        have h2 : (List.find? (fun q => q.matches d) A).or
            (List.find? (fun q => q.matches d) B)
            = List.find? (fun q => q.matches d) (A ++ B) := (List.find?_append).symm
        rw [h2, ← hAB, ih]
        unfold findSpec
        rw [show (r :: rs).filter (fun q => q.matches d)
            = rs.filter (fun q => q.matches d) by simp [List.filter_cons, hPrf]]

/-! ## Bridge lemmas between the executable matcher and the spec predicates -/

theorem isSubstr_iff (pat l : List Char) : isSubstr pat l = true ↔ pat <:+: l := by
  induction l with
  | nil => simp [isSubstr, List.isEmpty_iff, List.infix_nil]
  | cons c t ih =>
      simp [isSubstr, Bool.or_eq_true, List.isPrefixOf_iff_prefix, ih,
        List.infix_cons_iff]

theorem check_contains_iff (text : List Char) (pat : String) :
    check_contains text pat = true ↔ ContainsPat text pat := by
  unfold check_contains ContainsPat patAlternatives
  by_cases h : pat.toList.contains '|' = true
  · rw [if_pos h, if_pos h]
    simp only [List.any_eq_true, isSubstr_iff, List.mem_map]
    constructor
    · rintro ⟨p, hp, hinf⟩
      exact ⟨lowerChars (trimChars p), ⟨p, hp, rfl⟩, hinf⟩
    · rintro ⟨q, ⟨p, hp, rfl⟩, hinf⟩
      exact ⟨p, hp, hinf⟩
  · rw [if_neg h, if_neg h]
    simp [isSubstr_iff]

theorem matchesCond_iff (d : EmailData) (c : Condition) :
    matchesCond (lowerChars (d.subject.getD "").toList)
      (lowerChars (d.sender.getD "").toList)
      (lowerChars (d.body_preview.getD "").toList)
      d.has_attachments d.attachment_names c = true
    ↔ CondHolds d c := by
  cases c <;>
    simp [matchesCond, CondHolds, check_contains_iff, isSubstr_iff,
      List.any_eq_true, beq_iff_eq]

theorem matches_iff_all_conditions (r : ClassificationRule) (d : EmailData) :
    r.matches d = true ↔ ∀ c ∈ r.conditions, CondHolds d c := by
  unfold ClassificationRule.matches
  simp only [List.all_eq_true, matchesCond_iff]

/-! ## Claim theorems: rule matching semantics -/

/-- C2: a rule matches iff every declared condition individually holds on the
lowercased email fields (AND across conditions), a pipe-delimited pattern in
a contains condition matches iff some alternative is a substring (pattern
OR); the invoice/facture/factuur rule matches exactly the subjects holding
one of the three substrings case-insensitively, and a rule with both
has_attachments true and subject_contains casino matches exactly when both
conditions hold (so never when only one does). -/
theorem rule_match_and_or_semantics :
    (∀ (r : ClassificationRule) (d : EmailData),
      r.matches d = true ↔ ∀ c ∈ r.conditions, CondHolds d c)
    ∧ (∀ subject : String,
        ClassificationRule.matches
          ⟨"Invoice multi-lang", [Condition.subject_contains "invoice|facture|factuur"],
            .INVOICE, none, false, 100⟩
          { subject := some subject } = true
        ↔ ("invoice".toList <:+: lowerChars subject.toList
            ∨ "facture".toList <:+: lowerChars subject.toList
            ∨ "factuur".toList <:+: lowerChars subject.toList))
    ∧ (∀ d : EmailData,
        ClassificationRule.matches
          ⟨"Spam with attachment", [Condition.has_attachments true,
            Condition.subject_contains "casino"], .SPAM, none, false, 10⟩ d = true
        ↔ (d.has_attachments = true
            ∧ "casino".toList <:+: lowerChars (d.subject.getD "").toList)) := by
  have halt : patAlternatives "invoice|facture|factuur"
      = ["invoice".toList, "facture".toList, "factuur".toList] := by decide
  have hcas : patAlternatives "casino" = ["casino".toList] := by decide
  refine ⟨matches_iff_all_conditions, ?_, ?_⟩
  · intro subject
    rw [matches_iff_all_conditions]
    simp [CondHolds, ContainsPat, halt]
  · intro d
    rw [matches_iff_all_conditions]
    simp [CondHolds, ContainsPat, hcas]

/-- C9: an unrecognized condition type is treated as automatically satisfied
during matching (removing it never changes the outcome), and its presence
does not make _parse_rule reject the rule: a rule with a good name, non-empty
conditions and a recognized category is always accepted, whatever condition
types the conditions hold. -/
theorem unknown_condition_auto_satisfied :
    (∀ (nm : String) (cs1 cs2 : List Condition) (t : String) (cat : EmailCategory)
        (folder : Option String) (ad : Bool) (p : Int) (d : EmailData),
      ClassificationRule.matches ⟨nm, cs1 ++ Condition.unknown t :: cs2, cat, folder, ad, p⟩ d
        = ClassificationRule.matches ⟨nm, cs1 ++ cs2, cat, folder, ad, p⟩ d)
    ∧ (∀ (rd : RuleData) (n : String), rd.name = some n → n ≠ "" →
        rd.conditions ≠ [] →
        ∀ cat, parseCategory (upperChars (rd.category.getD "unknown").toList) = some cat →
        parse_rule rd
          = some ⟨n, rd.conditions, cat, rd.folder, rd.auto_delete, rd.priority⟩) := by
  constructor
  · intro nm cs1 cs2 t cat folder ad p d
    simp [ClassificationRule.matches, List.all_append, matchesCond]
  · intro rd n hn hne hcs cat hcat
    have hcat' : parseCategory (upperChars (rd.category.getD "unknown").data) = some cat := hcat
    unfold parse_rule
    rw [hn]
    simp [hne, hcs, hcat']

/-- C9 witness: a concrete rule whose conditions hold an unrecognized type is
accepted by the parser, and the unknown condition does not block matching. -/
theorem unknown_condition_auto_satisfied_witness :
    parse_rule
        ({ name := some "X"
           conditions := [Condition.unknown "frobnicate"]
           category := some "spam" })
      = some ⟨"X", [Condition.unknown "frobnicate"], .SPAM, none, false, 0⟩
    ∧ ClassificationRule.matches ⟨"X", [Condition.unknown "frobnicate"], .SPAM, none, false, 0⟩ {}
      = ClassificationRule.matches ⟨"X", [], .SPAM, none, false, 0⟩ {} := by
  constructor
  · exact unknown_condition_auto_satisfied.2 _ "X" rfl (by decide) (by decide) .SPAM (by decide)
  · exact unknown_condition_auto_satisfied.1 "X" [] [] "frobnicate" .SPAM none false 0 {}

/-- C10: both dispatch call sites build the rule-matching input with an empty
attachment_names list, and a rule holding an attachment_name_contains
condition can never match such an input (the any-over-empty-list test is
false), so find_matching_rule never returns such a rule for an email going
through the dispatch pipeline. -/
theorem dispatch_attachment_rules_never_match :
    (∀ e : EmailRec, (emailDataFor e).attachment_names = [])
    ∧ (∀ (r : ClassificationRule) (d : EmailData) (pat : String),
        Condition.attachment_name_contains pat ∈ r.conditions →
        d.attachment_names = [] → r.matches d = false)
    ∧ (∀ (rules : List ClassificationRule) (e : EmailRec) (r : ClassificationRule)
        (pat : String),
        Condition.attachment_name_contains pat ∈ r.conditions →
        find_matching_rule rules (emailDataFor e) ≠ some r) := by
  have key : ∀ (r : ClassificationRule) (d : EmailData) (pat : String),
      Condition.attachment_name_contains pat ∈ r.conditions →
      d.attachment_names = [] → r.matches d = false := by
    intro r d pat hmem hatt
    cases hb : r.matches d with
    | false => rfl
    | true =>
        exfalso
        have hall := hb
        simp only [ClassificationRule.matches, List.all_eq_true] at hall
        have h2 := hall _ hmem
        rw [hatt] at h2
        simp [matchesCond] at h2
  refine ⟨fun _ => rfl, key, ?_⟩
  intro rules e r pat hmem hfind
  have hp := List.find?_some hfind
  have hf : r.matches (emailDataFor e) = false := key r _ pat hmem rfl
  rw [hf] at hp
  exact Bool.false_ne_true hp

/-- C10 witness: on a concrete email, a concrete attachment-condition rule is
never returned by find_matching_rule. -/
theorem dispatch_attachment_rules_never_match_witness :
    find_matching_rule
        [⟨"Invoice by attachment", [Condition.attachment_name_contains "invoice"],
          .INVOICE, none, false, 100⟩]
        (emailDataFor
          { id := 1
            account_id := 1
            message_id := "m"
            subject := some "Your Invoice"
            has_attachments := true })
      ≠ some ⟨"Invoice by attachment", [Condition.attachment_name_contains "invoice"],
          .INVOICE, none, false, 100⟩ := by
  exact dispatch_attachment_rules_never_match.2.2 _ _ _ "invoice" (by decide)

/-- C1: for every loaded rule set and email, find_matching_rule over the
loaded (stably priority-sorted) rules returns exactly the spec-side choice:
the highest-priority rule whose conditions all hold, the one appearing
earliest in the source file on priority ties, and none when no rule
matches. -/
theorem find_matching_rule_returns_spec_choice (entries : List RuleData)
    (d : EmailData) :
    find_matching_rule (load_rules entries) d = findSpec (loadRulesList entries) d := by
  unfold find_matching_rule load_rules
  exact find?_sortRules_eq_findSpec d (loadRulesList entries)

/-! ## Claim theorems: rule loading -/

/-- C8: a rule entry with a falsy name, missing or empty conditions, or an
unrecognized target category is rejected by _parse_rule; the file loader is
exactly a filterMap over the entries, so a rejected entry is skipped and
parsing continues; concretely an INVALID_CATEGORY entry is absent from the
loaded set while the valid entries around it are loaded. -/
theorem rule_load_skips_invalid :
    (∀ rd : RuleData, rd.name = none ∨ rd.name = some "" → parse_rule rd = none)
    ∧ (∀ rd : RuleData, rd.conditions = [] → parse_rule rd = none)
    ∧ (∀ rd : RuleData,
        parseCategory (upperChars (rd.category.getD "unknown").toList) = none →
        parse_rule rd = none)
    ∧ (∀ entries : List RuleData, loadRulesList entries = entries.filterMap parse_rule)
    ∧ loadRulesList
        [{ name := some "Good one", conditions := [Condition.subject_contains "a"],
           category := some "INVOICE", priority := 5 },
         { name := some "Bad category", conditions := [Condition.subject_contains "test"],
           category := some "INVALID_CATEGORY", priority := 50 },
         { name := some "Good two", conditions := [Condition.sender_contains "b"],
           category := some "spam" }]
      = [⟨"Good one", [Condition.subject_contains "a"], .INVOICE, none, false, 5⟩,
         ⟨"Good two", [Condition.sender_contains "b"], .SPAM, none, false, 0⟩] := by
  refine ⟨?_, ?_, ?_, ?_, by decide⟩
  · intro rd h
    rcases h with h | h <;> simp [parse_rule, h]
  · intro rd h
    cases hn : rd.name with
    | none => simp [parse_rule, hn]
    | some n =>
        by_cases he : n = "" <;> simp [parse_rule, hn, he, h]
  · intro rd h
    have h' : parseCategory (upperChars (rd.category.getD "unknown").data) = none := h
    cases hn : rd.name with
    | none => simp [parse_rule, hn]
    | some n =>
        by_cases he : n = ""
        · simp [parse_rule, hn, he]
        · by_cases hc : rd.conditions = [] <;> simp [parse_rule, hn, he, hc, h']
  · intro entries
    induction entries with
    | nil => rfl
    | cons rd rds ih =>
        simp only [loadRulesList, List.filterMap_cons]
        cases parse_rule rd <;> simp [ih]

/-- C8 witness: the rejection clauses evaluated at concrete invalid entries. -/
theorem rule_load_skips_invalid_witness :
    parse_rule
        ({ name := none
           conditions := [Condition.subject_contains "x"]
           category := some "SPAM" }) = none
    ∧ parse_rule ({ name := some "No conditions", category := some "SPAM" }) = none
    ∧ parse_rule
        ({ name := some "Bad category"
           conditions := [Condition.subject_contains "test"]
           category := some "INVALID_CATEGORY" }) = none := by
  refine ⟨?_, ?_, ?_⟩
  · exact rule_load_skips_invalid.1 _ (Or.inl rfl)
  · exact rule_load_skips_invalid.2.1 _ rfl
  · exact rule_load_skips_invalid.2.2.1 _ (by decide)

/-! ## Claim theorems: classifier fallbacks -/

/-- C3 counterexample: on an unparseable LLM response the classifier returns
confidence 20 with the fallback reason, not the claimed confidence 0 with an
error-description reason. -/
theorem classifier_unparseable_not_zero_confidence :
    classify_email (OllamaReply.reply ParsedResponse.malformed)
      = { category := .UNKNOWN, confidence := 20,
          reason := "Fallback classification - LLM response could not be parsed" }
    ∧ (classify_email (OllamaReply.reply ParsedResponse.malformed)).confidence ≠ 0 := by
  constructor
  · rfl
  · decide

/-- C3 amended: classify_email returns a result for every transport outcome
(it never propagates an error); a transport failure (timeout or HTTP error)
yields UNKNOWN, confidence 0 and an error-description reason, while an
unparseable response yields the internal fallback UNKNOWN, confidence 20,
fixed fallback reason; every returned confidence lies in 0..100. -/
theorem classifier_total_with_fallbacks :
    classify_email OllamaReply.timeout
      = { category := .UNKNOWN, confidence := 0,
          reason := "Error during classification: LLM request timeout" }
    ∧ (∀ e : String, classify_email (OllamaReply.http_error e)
        = { category := .UNKNOWN, confidence := 0,
            reason := "Error during classification: LLM HTTP error: " ++ e })
    ∧ classify_email (OllamaReply.reply ParsedResponse.malformed) = fallback_classification
    ∧ (∀ t : OllamaReply, 0 ≤ (classify_email t).confidence
        ∧ (classify_email t).confidence ≤ 100) := by
  refine ⟨rfl, fun e => rfl, rfl, ?_⟩
  intro t
  cases t with
  | timeout => exact ⟨le_refl 0, by show (0 : Int) ≤ 100; norm_num⟩
  | http_error e => exact ⟨le_refl 0, by show (0 : Int) ≤ 100; norm_num⟩
  | reply r =>
      cases r with
      | malformed => exact ⟨by norm_num [classify_email, call_ollama, parse_llm_response, fallback_classification], by norm_num [classify_email, call_ollama, parse_llm_response, fallback_classification]⟩
      | fields cat conf reason =>
          constructor
          · simp [classify_email, call_ollama, parse_llm_response]
          · simp [classify_email, call_ollama, parse_llm_response]

/-! ## Claim theorems: action dispatcher -/

/-- C5: for an email classified SPAM with no matching rule, the dispatcher
calls the connector delete operation and no move, returns status success,
leaves the email with status CLASSIFIED and processed_at stamped regardless
of the delete outcome, and on a successful delete sets is_deleted with
deleted_at stamped. -/
theorem spam_default_action_is_delete (rules : List ClassificationRule)
    (email_id : Nat) (email : EmailRec) (acct : EmailAccount) (confidence : Int)
    (beh : ConnectorBeh) (now : Nat)
    (hrule : find_matching_rule rules (emailDataFor email) = none)
    (hacq : beh.acquire_fails = false) (hcon : beh.connect_fails = false) :
    (apply_classification_action rules email_id (some email) (some acct)
        EmailCategory.SPAM confidence beh now).2.2
      = [ConnectorCall.connect, ConnectorCall.delete email.message_id false,
         ConnectorCall.disconnect]
    ∧ (apply_classification_action rules email_id (some email) (some acct)
        EmailCategory.SPAM confidence beh now).1.status = "success"
    ∧ ∃ final,
        (apply_classification_action rules email_id (some email) (some acct)
          EmailCategory.SPAM confidence beh now).2.1 = some final
        ∧ final.status = ProcessingStatus.CLASSIFIED
        ∧ final.processed_at = some now
        ∧ (beh.delete_result = true →
            final.is_deleted = true ∧ final.deleted_at = some now) := by
  cases hd : beh.delete_result <;>
    simp [apply_classification_action, hrule, hacq, hcon, hd,
      get_default_folder_for_category]

/-- C5 witness: the theorem evaluated on a concrete SPAM email with an empty
rule set and a connector whose delete succeeds. -/
theorem spam_default_action_is_delete_witness :
    (apply_classification_action [] 1
        (some { id := 1, account_id := 2, message_id := "mid" })
        (some { id := 2, account_type := AccountType.IMAP })
        EmailCategory.SPAM 80 {} 5).2.2
      = [ConnectorCall.connect, ConnectorCall.delete "mid" false,
         ConnectorCall.disconnect]
    ∧ (apply_classification_action [] 1
        (some { id := 1, account_id := 2, message_id := "mid" })
        (some { id := 2, account_type := AccountType.IMAP })
        EmailCategory.SPAM 80 {} 5).1.status = "success"
    ∧ ∃ final,
        (apply_classification_action [] 1
          (some { id := 1, account_id := 2, message_id := "mid" })
          (some { id := 2, account_type := AccountType.IMAP })
          EmailCategory.SPAM 80 {} 5).2.1 = some final
        ∧ final.status = ProcessingStatus.CLASSIFIED
        ∧ final.processed_at = some 5
        ∧ (({} : ConnectorBeh).delete_result = true →
            final.is_deleted = true ∧ final.deleted_at = some 5) :=
  spam_default_action_is_delete [] 1
    { id := 1, account_id := 2, message_id := "mid" }
    { id := 2, account_type := AccountType.IMAP } 80 {} 5 rfl rfl rfl

/-- C7: apply_label on a non-Gmail account returns an error dict whose
message holds "only supported for Gmail" and performs no connector call at
all; on a Gmail account whose connector lacks the apply_label capability the
absence comes back as an error dict (after connect and disconnect), not a
crash. -/
theorem apply_label_gmail_only (email_id : Nat) (email : EmailRec)
    (acct : EmailAccount) (label : String) (beh : ConnectorBeh) :
    (acct.account_type ≠ AccountType.GMAIL →
      (apply_label email_id (some email) (some acct) label beh).1.status = "error"
      ∧ (∃ msg, (apply_label email_id (some email) (some acct) label beh).1.error
            = some msg
          ∧ "only supported for Gmail".toList <:+: msg.toList)
      ∧ (apply_label email_id (some email) (some acct) label beh).2 = [])
    ∧ (acct.account_type = AccountType.GMAIL → beh.acquire_fails = false →
        beh.connect_fails = false → beh.has_apply_label = false →
        apply_label email_id (some email) (some acct) label beh
          = ({ status := "error",
               error := some "Gmail connector does not support label operations" },
             [ConnectorCall.connect, ConnectorCall.disconnect])) := by
  constructor
  · intro h
    cases ht : acct.account_type with
    | GMAIL => exact absurd ht h
    | OUTLOOK =>
        refine ⟨by simp [apply_label, ht],
          ⟨"Labels are only supported for Gmail accounts (account type: "
              ++ accountTypeValue AccountType.OUTLOOK ++ ")",
            by simp [apply_label, ht], ?_⟩,
          by simp [apply_label, ht]⟩
        exact (isSubstr_iff _ _).mp (by decide)
    | IMAP =>
        refine ⟨by simp [apply_label, ht],
          ⟨"Labels are only supported for Gmail accounts (account type: "
              ++ accountTypeValue AccountType.IMAP ++ ")",
            by simp [apply_label, ht], ?_⟩,
          by simp [apply_label, ht]⟩
        exact (isSubstr_iff _ _).mp (by decide)
  · intro ht ha hc hl
    simp [apply_label, ht, ha, hc, hl]

/-! ## Lemmas for the bulk operations -/

theorem bulkMoveStep_succ (folder : String) (env : MoveEnv)
    (h : moveSucceeds env = true) :
    ∃ em, env.email? = some em
      ∧ bulkMoveStep folder env
        = Sum.inr (env.email_id,
            { em with archived_folder := some folder, status := .ARCHIVED }) := by
  unfold moveSucceeds at h
  rcases henv : env.email? with _ | em
  · rw [henv] at h
    simp at h
  · rcases hacc : env.account? with _ | acct
    · rw [hacc] at h
      simp at h
    · rw [henv, hacc] at h
      simp only [Option.isSome_some, Bool.true_and, Bool.and_eq_true,
        Bool.not_eq_true'] at h
      obtain ⟨⟨h1, h2⟩, h3⟩ := h
      refine ⟨em, rfl, ?_⟩
      unfold bulkMoveStep
      rw [henv, hacc]
      simp [h1, h2, h3]

theorem bulkMoveStep_fail (folder : String) (env : MoveEnv)
    (h : moveSucceeds env = false) :
    ∃ f, bulkMoveStep folder env = Sum.inl f ∧ f.email_id = env.email_id := by
  rcases henv : env.email? with _ | em
  · refine ⟨{ email_id := env.email_id, error := "Email not found" }, ?_, rfl⟩
    unfold bulkMoveStep
    rw [henv]
  · rcases hacc : env.account? with _ | acct
    · refine ⟨{ email_id := env.email_id, error := "Account not found" }, ?_, rfl⟩
      unfold bulkMoveStep
      rw [henv, hacc]
    · by_cases ha : env.beh.acquire_fails = true
      · refine ⟨{ email_id := env.email_id, error := "Failed to create connector" }, ?_, rfl⟩
        unfold bulkMoveStep
        rw [henv, hacc]
        simp [ha]
      · by_cases hc : env.beh.connect_fails = true
        · refine ⟨{ email_id := env.email_id, error := "connect failed" }, ?_, rfl⟩
          unfold bulkMoveStep
          rw [henv, hacc]
          simp [ha, hc]
        · by_cases hm : env.beh.move_result = true
          · exfalso
            unfold moveSucceeds at h
            rw [henv, hacc] at h
            simp [ha, hc, hm] at h
          · refine ⟨{ email_id := env.email_id, error := "Move operation failed" }, ?_, rfl⟩
            unfold bulkMoveStep
            rw [henv, hacc]
            simp [ha, hc, hm]

theorem bulk_move_succeeded_aux (folder : String) (envs : List MoveEnv) :
    (envs.map (bulkMoveStep folder)).filterMap
        (fun s => match s with | .inr (i, _) => some i | .inl _ => none)
      = (envs.filter moveSucceeds).map (fun env => env.email_id) := by
  induction envs with
  | nil => rfl
  | cons env envs ih =>
      simp only [List.map_cons, List.filterMap_cons, List.filter_cons]
      cases hs : moveSucceeds env
      · rcases bulkMoveStep_fail folder env hs with ⟨f, hstep, _⟩
        rw [hstep]
        simp [ih]
      · rcases bulkMoveStep_succ folder env hs with ⟨em, _, hstep⟩
        rw [hstep]
        simp [ih]

theorem bulk_move_failed_aux (folder : String) (envs : List MoveEnv) :
    ((envs.map (bulkMoveStep folder)).filterMap
        (fun s => match s with | .inl f => some f | .inr _ => none)).map
        (fun f => f.email_id)
      = (envs.filter (fun env => !moveSucceeds env)).map (fun env => env.email_id) := by
  induction envs with
  | nil => rfl
  | cons env envs ih =>
      cases hs : moveSucceeds env
      · rcases bulkMoveStep_fail folder env hs with ⟨f, hstep, hid⟩
        rw [List.map_cons, hstep]
        simp only [List.filterMap_cons, List.map_cons, List.filter_cons]
        rw [hid, ih]
        simp [hs]
      · rcases bulkMoveStep_succ folder env hs with ⟨em, _, hstep⟩
        rw [List.map_cons, hstep]
        simp only [List.filterMap_cons, List.filter_cons]
        rw [ih]
        simp [hs]

theorem bulk_move_updated_aux (folder : String) (envs : List MoveEnv) :
    ((envs.map (bulkMoveStep folder)).filterMap
        (fun s => match s with | .inr (_, e) => some e | .inl _ => none)).all
        (fun e => e.status == ProcessingStatus.ARCHIVED
          && e.archived_folder == some folder) = true := by
  induction envs with
  | nil => rfl
  | cons env envs ih =>
      simp only [List.map_cons, List.filterMap_cons]
      cases hs : moveSucceeds env
      · rcases bulkMoveStep_fail folder env hs with ⟨f, hstep, _⟩
        rw [hstep]
        simpa using ih
      · rcases bulkMoveStep_succ folder env hs with ⟨em, _, hstep⟩
        rw [hstep]
        simpa using ih

/-- C6: bulk_move_emails returns total equal to the input length, succeeded
exactly the ids whose iteration succeeded (in order), failed carrying the ids
of exactly the other iterations, the overall status computed as success when
failed is empty, partial when both lists are non-empty and error otherwise,
and every updated row carrying status ARCHIVED with archived_folder set; on
the concrete three-email batch where only the second move fails the result
is partial with succeeded [1, 3], one failed entry for 2 and total 3. -/
theorem bulk_move_partial_failure_semantics :
    (∀ (envs : List MoveEnv) (folder : String),
      (bulk_move_emails envs folder).1.total = envs.length
      ∧ (bulk_move_emails envs folder).1.succeeded
          = (envs.filter moveSucceeds).map (fun env => env.email_id)
      ∧ (bulk_move_emails envs folder).1.failed.map (fun f => f.email_id)
          = (envs.filter (fun env => !moveSucceeds env)).map (fun env => env.email_id)
      ∧ (bulk_move_emails envs folder).1.status
          = (if (bulk_move_emails envs folder).1.failed.isEmpty then "success"
             else if !(bulk_move_emails envs folder).1.succeeded.isEmpty then "partial"
             else "error")
      ∧ (bulk_move_emails envs folder).2.all
          (fun e => e.status == ProcessingStatus.ARCHIVED
            && e.archived_folder == some folder) = true)
    ∧ (bulk_move_emails
        [{ email_id := 1, email? := some { id := 1, account_id := 9, message_id := "m1" },
           account? := some { id := 9, account_type := AccountType.IMAP } },
         { email_id := 2, email? := some { id := 2, account_id := 9, message_id := "m2" },
           account? := some { id := 9, account_type := AccountType.IMAP },
           beh := { move_result := false } },
         { email_id := 3, email? := some { id := 3, account_id := 9, message_id := "m3" },
           account? := some { id := 9, account_type := AccountType.IMAP } }]
        "Archive").1
      = { status := "partial", succeeded := [1, 3],
          failed := [{ email_id := 2, error := "Move operation failed" }], total := 3 } := by
  constructor
  · intro envs folder
    refine ⟨rfl, bulk_move_succeeded_aux folder envs, bulk_move_failed_aux folder envs,
      rfl, bulk_move_updated_aux folder envs⟩
  · decide

/-- The dispatcher always leaves the email row it was given (or its final
committed state) in place and never touches the persisted classification
fields; the status is either unchanged or advanced to CLASSIFIED, never set
to ERROR. -/
theorem apply_classification_action_email_state (rules : List ClassificationRule)
    (email_id : Nat) (e : EmailRec) (acct? : Option EmailAccount)
    (cat : EmailCategory) (conf : Int) (beh : ConnectorBeh) (now : Nat) :
    ∃ e', (apply_classification_action rules email_id (some e) acct? cat conf beh now).2.1
        = some e'
      ∧ e'.category = e.category
      ∧ e'.classification_confidence = e.classification_confidence
      ∧ e'.classification_reason = e.classification_reason
      ∧ (e'.status = e.status ∨ e'.status = ProcessingStatus.CLASSIFIED) := by
  cases acct? with
  | none => exact ⟨e, rfl, rfl, rfl, rfl, Or.inl rfl⟩
  | some acct =>
      simp only [apply_classification_action]
      split_ifs <;> exact ⟨_, rfl, by simp, by simp, by simp, by simp⟩

/-- C4 counterexample: one pending email whose account lookup fails inside
the dispatcher (the dispatcher returns an error outcome), yet the bulk
aggregate reports zero errors, counts the email as classified, and the email
row is left at PROCESSING, not ERROR. -/
theorem bulk_classify_dispatcher_failure_not_counted :
    (apply_classification_action [] 1
        (some { id := 1, account_id := 7, message_id := "m1",
                category := EmailCategory.SPAM, classification_confidence := 50,
                classification_reason := "llm", status := ProcessingStatus.PROCESSING })
        none EmailCategory.SPAM 50 {} 0).1.status = "error"
    ∧ (bulk_classify_pending_emails []
        [{ email := { id := 1, account_id := 7, message_id := "m1" },
           llm := { category := EmailCategory.SPAM, confidence := 50, reason := "llm" } }]
        0).1.errors = 0
    ∧ (bulk_classify_pending_emails []
        [{ email := { id := 1, account_id := 7, message_id := "m1" },
           llm := { category := EmailCategory.SPAM, confidence := 50, reason := "llm" } }]
        0).1.classified = 1
    ∧ (bulk_classify_pending_emails []
        [{ email := { id := 1, account_id := 7, message_id := "m1" },
           llm := { category := EmailCategory.SPAM, confidence := 50, reason := "llm" } }]
        0).2.map (fun e => e.status) = [ProcessingStatus.PROCESSING] := by
  refine ⟨rfl, rfl, rfl, rfl⟩

/-- C4 amended: the bulk loop ignores the outcome dict the dispatcher
returns: processed counts every email, the error counter counts only
loop-body exceptions (modelled as per-email commit failures) and classified
counts the rest, so a dispatcher error outcome still counts as classified
and adds no error; for such an email the committed classification
(category, confidence, reason) is not rolled back and the status is never
set to ERROR by the loop (it stays PROCESSING or becomes CLASSIFIED). -/
theorem bulk_classify_ignores_dispatcher_failures :
    (∀ (rules : List ClassificationRule) (envs : List PendingEnv) (now : Nat),
      (bulk_classify_pending_emails rules envs now).1.processed = envs.length
      ∧ (bulk_classify_pending_emails rules envs now).1.errors
          = (envs.filter (fun env => env.commit_raises)).length
      ∧ (bulk_classify_pending_emails rules envs now).1.classified
          = (envs.filter (fun env => !env.commit_raises)).length)
    ∧ (∀ (rules : List ClassificationRule) (env : PendingEnv) (now : Nat),
        env.commit_raises = false →
        ∃ e', (bulk_classify_pending_emails rules [env] now).2 = [e']
          ∧ e'.category = (bulkClassification rules env).1
          ∧ e'.classification_confidence = (bulkClassification rules env).2.1
          ∧ e'.classification_reason = (bulkClassification rules env).2.2
          ∧ e'.status ≠ ProcessingStatus.ERROR) := by
  have hsum : ∀ (l : List PendingEnv) (p : PendingEnv → Bool),
      (l.map (fun x => if p x then (1 : Nat) else 0)).sum = (l.filter p).length := by
    intro l p
    induction l with
    | nil => rfl
    | cons x xs ih =>
        by_cases h : p x = true <;> simp [List.filter_cons, h, ih]
        all_goals omega
  constructor
  · intro rules envs now
    refine ⟨rfl, ?_, ?_⟩
    · show ((envs.map (bulkClassifyStep rules now)).map (fun s => s.2.1)).sum = _
      rw [List.map_map]
      have hcong : envs.map ((fun s => s.2.1) ∘ bulkClassifyStep rules now)
          = envs.map (fun env => if env.commit_raises then (1 : Nat) else 0) := by
        refine List.map_congr_left ?_
        intro env _
        show (bulkClassifyStep rules now env).2.1 = _
        unfold bulkClassifyStep
        by_cases h : env.commit_raises = true <;> simp [h]
      rw [hcong, hsum]
    · show ((envs.map (bulkClassifyStep rules now)).map (fun s => s.1)).sum = _
      rw [List.map_map]
      have hcong : envs.map ((fun s => s.1) ∘ bulkClassifyStep rules now)
          = envs.map (fun env => if !env.commit_raises then (1 : Nat) else 0) := by
        refine List.map_congr_left ?_
        intro env _
        show (bulkClassifyStep rules now env).1 = _
        unfold bulkClassifyStep
        by_cases h : env.commit_raises = true <;> simp [h]
      rw [hcong, hsum]
  · intro rules env now h
    obtain ⟨e'', he'', hcat, hconf, hreas, hstat⟩ :=
      apply_classification_action_email_state rules (classifiedRow rules env).id
        (classifiedRow rules env) env.account? (bulkClassification rules env).1
        (bulkClassification rules env).2.1 env.beh now
    refine ⟨e'', ?_, ?_, ?_, ?_, ?_⟩
    · show [(bulkClassifyStep rules now env).2.2] = [e'']
      unfold bulkClassifyStep
      rw [if_neg (by simp [h])]
      show [(apply_classification_action rules (classifiedRow rules env).id
          (some (classifiedRow rules env)) env.account?
          (bulkClassification rules env).1 (bulkClassification rules env).2.1
          env.beh now).2.1.getD (classifiedRow rules env)] = [e'']
      rw [he'']
      rfl
    · rw [hcat]
      simp [classifiedRow]
    · rw [hconf]
      simp [classifiedRow]
    · rw [hreas]
      simp [classifiedRow]
    · rcases hstat with hs | hs <;> rw [hs] <;> simp [classifiedRow]

/-- C4 amended witness: a concrete pending email whose account lookup fails
inside the dispatcher still comes out classified, with the classification
fields intact and the status not ERROR. -/
theorem bulk_classify_ignores_dispatcher_failures_witness :
    ({ email := { id := 1, account_id := 7, message_id := "m1" },
       llm := { category := EmailCategory.SPAM, confidence := 50,
                reason := "llm" } } : PendingEnv).commit_raises = false
    ∧ ∃ e', (bulk_classify_pending_emails []
        [{ email := { id := 1, account_id := 7, message_id := "m1" },
           llm := { category := EmailCategory.SPAM, confidence := 50,
                    reason := "llm" } }] 0).2 = [e']
      ∧ e'.category = (bulkClassification []
          { email := { id := 1, account_id := 7, message_id := "m1" },
            llm := { category := EmailCategory.SPAM, confidence := 50,
                     reason := "llm" } }).1
      ∧ e'.classification_confidence = (bulkClassification []
          { email := { id := 1, account_id := 7, message_id := "m1" },
            llm := { category := EmailCategory.SPAM, confidence := 50,
                     reason := "llm" } }).2.1
      ∧ e'.classification_reason = (bulkClassification []
          { email := { id := 1, account_id := 7, message_id := "m1" },
            llm := { category := EmailCategory.SPAM, confidence := 50,
                     reason := "llm" } }).2.2
      ∧ e'.status ≠ ProcessingStatus.ERROR :=
  ⟨rfl, bulk_classify_ignores_dispatcher_failures.2 []
    { email := { id := 1, account_id := 7, message_id := "m1" },
      llm := { category := EmailCategory.SPAM, confidence := 50,
               reason := "llm" } } 0 rfl⟩

/-- C7 witness: the theorem evaluated on a concrete IMAP account and on a
concrete Gmail account without the label capability. -/
theorem apply_label_gmail_only_witness :
    ((apply_label 1 (some { id := 1, account_id := 2, message_id := "m" })
        (some { id := 2, account_type := AccountType.IMAP }) "Important" {}).1.status
      = "error"
    ∧ (∃ msg, (apply_label 1 (some { id := 1, account_id := 2, message_id := "m" })
          (some { id := 2, account_type := AccountType.IMAP }) "Important" {}).1.error
            = some msg
        ∧ "only supported for Gmail".toList <:+: msg.toList)
    ∧ (apply_label 1 (some { id := 1, account_id := 2, message_id := "m" })
        (some { id := 2, account_type := AccountType.IMAP }) "Important" {}).2 = [])
    ∧ apply_label 1 (some { id := 1, account_id := 2, message_id := "m" })
        (some { id := 2, account_type := AccountType.GMAIL }) "Important"
        ({ has_apply_label := false })
      = ({ status := "error",
           error := some "Gmail connector does not support label operations" },
         [ConnectorCall.connect, ConnectorCall.disconnect]) := by
  constructor
  · exact (apply_label_gmail_only 1 { id := 1, account_id := 2, message_id := "m" }
      { id := 2, account_type := AccountType.IMAP } "Important" {}).1 (by decide)
  · exact (apply_label_gmail_only 1 { id := 1, account_id := 2, message_id := "m" }
      { id := 2, account_type := AccountType.GMAIL } "Important"
      ({ has_apply_label := false })).2 rfl rfl rfl rfl

end EmailAgent
